import Mathlib

/-!
Shallow embedding of the runtime-support core of the mcp-tools-server
repository: the TTL cache (`src/utils/cache.ts`), the sliding-window rate
limiter (`src/utils/rate-limiter.ts`), the health aggregator's status
reduction (`src/utils/health.ts`) and the geocoding service's caching
pipeline (`src/services/geocoding.ts`).

Timestamps and durations are modelled as `Int` (JS `number` arithmetic on
millisecond clock values, where differences such as `now - windowMs` may be
negative). A JavaScript `Map` is modelled as an association list in
insertion order, which is the iteration order `Map` guarantees: updating an
existing key keeps its position, inserting a new key appends.
-/

namespace McpTools

/-! ## JavaScript Map model -/

/-- Lookup of `map.get(k)`: the value stored at `k`, if present. -/
def mapGet {α : Type} (l : List (String × α)) (k : String) : Option α :=
  match l with
  | [] => none
  | p :: rest => if p.1 = k then some p.2 else mapGet rest k

/-- Update of `map.set(k, v)`: replaces the entry in place when the key is
present (JS `Map` keeps its insertion position), otherwise appends. -/
def mapSet {α : Type} (l : List (String × α)) (k : String) (v : α) :
    List (String × α) :=
  match l with
  | [] => [(k, v)]
  | p :: rest => if p.1 = k then (k, v) :: rest else p :: mapSet rest k v

/-- Removal of `map.delete(k)`: drops the entry for `k` when present. -/
def mapDelete {α : Type} (l : List (String × α)) (k : String) :
    List (String × α) :=
  match l with
  | [] => []
  | p :: rest => if p.1 = k then rest else p :: mapDelete rest k

/-! ## TTL cache (`src/utils/cache.ts`) -/

/-- The `CacheEntry<T>` interface: stored data, write timestamp, ttl in ms. -/
structure CacheEntry (α : Type) where
  data : α
  timestamp : Int
  ttl : Int
deriving Repr, DecidableEq

/-- The `CacheConfig` interface. -/
structure CacheConfig where
  defaultTtl : Int
  maxSize : Nat
  cleanupInterval : Int
deriving Repr, DecidableEq

/-- Mutable state of a `Cache<T>` instance: the backing `Map` plus the
hit/miss counters used for hit-rate statistics. -/
structure CacheState (α : Type) where
  storage : List (String × CacheEntry α)
  hits : Nat
  misses : Nat
deriving Repr, DecidableEq

/-- A fresh cache: empty storage, zero counters. -/
def CacheState.empty {α : Type} : CacheState α := ⟨[], 0, 0⟩

/-- The ttl actually stored by `set`: `ttl || this.config.defaultTtl`.
A missing argument or the falsy number `0` both select the default. -/
def effectiveTtl (ttl : Option Int) (defaultTtl : Int) : Int :=
  match ttl with
  | none => defaultTtl
  | some t => if t = 0 then defaultTtl else t

/-- Body of `evictOldest`: fold over the storage in iteration order keeping
`(oldestKey, oldestTimestamp)`, seeded with `('', Date.now())` and updated
only on a strictly smaller timestamp. -/
def oldestScan {α : Type} (now : Int) (l : List (String × CacheEntry α)) :
    String × Int :=
  l.foldl (fun acc p => if p.2.timestamp < acc.2 then (p.1, p.2.timestamp) else acc)
    ("", now)

/-- `Cache.evictOldest`, called with the current clock value: deletes the
scanned key unless the sentinel `''` survived the scan (the JS code guards
with the string's truthiness: `if (oldestKey)`). -/
def evictOldest {α : Type} (now : Int) (l : List (String × CacheEntry α)) :
    List (String × CacheEntry α) :=
  let r := oldestScan now l
  if r.1 = "" then l else mapDelete l r.1

/-- `Cache.set(key, data, ttl?)`: evicts first when the map is at capacity
and the key is new (`storage.size >= maxSize && !storage.has(key)`), then
writes the entry with the current timestamp. -/
def cacheSet {α : Type} (cfg : CacheConfig) (k : String) (v : α)
    (ttl : Option Int) (now : Int) (st : CacheState α) : CacheState α :=
  let t := effectiveTtl ttl cfg.defaultTtl
  let storage :=
    if cfg.maxSize ≤ st.storage.length ∧ (mapGet st.storage k).isNone then
      evictOldest now st.storage
    else st.storage
  { st with storage := mapSet storage k ⟨v, now, t⟩ }

/-- The undecorated `Cache.get` (the method the stats wrapper delegates to):
returns the entry's data unless the entry is missing, or expired
(`now - entry.timestamp > entry.ttl`), in which case the expired entry is
deleted on the spot. -/
def baseGet {α : Type} (k : String) (now : Int)
    (l : List (String × CacheEntry α)) :
    Option α × List (String × CacheEntry α) :=
  match mapGet l k with
  | none => (none, l)
  | some e => if e.ttl < now - e.timestamp then (none, mapDelete l k) else (some e.data, l)

/-- The stats update performed by the tracking `get`: bump one counter,
then halve both (integer floor) when the total exceeds `maxStats = 100`. -/
def bumpStats (hit : Bool) (hits misses : Nat) : Nat × Nat :=
  let h := if hit then hits + 1 else hits
  let m := if hit then misses else misses + 1
  if 100 < h + m then (h / 2, m / 2) else (h, m)

/-- The public, stats-tracking `Cache.get`: delegates to the undecorated
lookup, then counts a hit when the result is non-null and a miss otherwise. -/
def cacheGet {α : Type} (k : String) (now : Int) (st : CacheState α) :
    Option α × CacheState α :=
  let r := baseGet k now st.storage
  let s := bumpStats r.1.isSome st.hits st.misses
  (r.1, ⟨r.2, s.1, s.2⟩)

/-- `Cache.has(key)`: `this.get(key) !== null`, delegating to the tracking
`get` including its side effects. -/
def cacheHas {α : Type} (k : String) (now : Int) (st : CacheState α) :
    Bool × CacheState α :=
  let r := cacheGet k now st
  (r.1.isSome, r.2)

/-- `Cache.calculateHitRate`: `hits / (hits + misses)`, `0` with no data. -/
def calculateHitRate (st : CacheState α) : ℚ :=
  if 0 < st.hits + st.misses then (st.hits : ℚ) / ((st.hits : ℚ) + st.misses) else 0

/-! ## Sliding-window rate limiter (`src/utils/rate-limiter.ts`) -/

/-- The `RateLimitConfig` interface (the optional `identifier` field plays
no role in `checkLimit`). -/
structure RateLimitConfig where
  maxRequests : Nat
  windowMs : Int
deriving Repr, DecidableEq

/-- The `RateLimitResult` interface. `remaining` is a JS number and is kept
as an `Int`. -/
structure RateLimitResult where
  allowed : Bool
  remaining : Int
  resetTime : Int
  retryAfter : Option Int
deriving Repr, DecidableEq

/-- Minimum of a timestamp list, as `Math.min(...validRequests)` computes it
on a nonempty list. (On an empty list JS yields `+Infinity`; that case is
unreachable in the denied branch whenever `maxRequests ≥ 1`, and this model
returns `0` there.) -/
def listMin : List Int → Int
  | [] => 0
  | x :: xs => xs.foldl min x

/-- `Math.ceil(x / d)` for integer `x` and positive integer `d`. -/
def jsCeilDiv (x d : Int) : Int := -(Int.fdiv (-x) d)

/-- `RateLimiter.checkLimit` acting on one key's timestamp list (the only
part of the `requests` map the call touches). Prunes timestamps outside
the window, denies without writing back when the pruned count reaches
`maxRequests`, and otherwise appends `now` and stores the pruned list. -/
def checkLimit (cfg : RateLimitConfig) (now : Int) (times : List Int) :
    RateLimitResult × List Int :=
  let windowStart := now - cfg.windowMs
  let valid := times.filter (fun t => windowStart < t)
  if cfg.maxRequests ≤ valid.length then
    let oldest := listMin valid
    ({ allowed := false, remaining := 0,
       resetTime := oldest + cfg.windowMs,
       retryAfter := some (jsCeilDiv (oldest + cfg.windowMs - now) 1000) }, times)
  else
    let updated := valid ++ [now]
    ({ allowed := true, remaining := (cfg.maxRequests : Int) - updated.length,
       resetTime := updated.headI + cfg.windowMs,
       retryAfter := none }, updated)

/-- State of one key after a sequence of `checkLimit` calls at the given
times, starting from no recorded requests. -/
def runLimiter (cfg : RateLimitConfig) (calls : List Int) : List Int :=
  calls.foldl (fun st t => (checkLimit cfg t st).2) []

/-! ## Health aggregator status reduction (`src/utils/health.ts`) -/

/-- A per-check verdict (`HealthCheck.status`); the reduction in
`getHealthStatus` reads nothing else from a `HealthCheck`. -/
inductive CheckStatus where
  | pass
  | warn
  | fail
deriving Repr, DecidableEq

/-- The overall `HealthStatus.status` values. -/
inductive OverallStatus where
  | healthy
  | degraded
  | unhealthy
deriving Repr, DecidableEq

/-- The reduction in `getHealthStatus`: count `fail` and `warn` checks;
`failCount > 0` gives `unhealthy`, else `warnCount > 1` gives `degraded`,
else `healthy`. -/
def overallStatus (checks : List CheckStatus) : OverallStatus :=
  let failCount := (checks.filter (fun c => c = .fail)).length
  let warnCount := (checks.filter (fun c => c = .warn)).length
  if 0 < failCount then .unhealthy
  else if 1 < warnCount then .degraded
  else .healthy

/-! ## Geocoding service (`src/services/geocoding.ts`) -/

/-- The `GeolocationResult` interface (coordinates kept as integers; no
claim computes with their numeric values). -/
structure GeolocationResult where
  latitude : Int
  longitude : Int
  name : String
  country : String
deriving Repr, DecidableEq

/-- The configuration of the `geocodingCache` singleton
(`CACHE_CONFIGS.GEOCODING`). -/
def geocodingConfig : CacheConfig :=
  { defaultTtl := 24 * 60 * 60 * 1000, maxSize := 1000,
    cleanupInterval := 60 * 60 * 1000 }

/-- JS `s.toLowerCase().trim()`, modelled by structural recursion on the
string's character list: lowercase every character, then drop leading and
trailing whitespace. -/
def lowerTrim (s : String) : String :=
  ⟨(((s.data.map Char.toLower).dropWhile Char.isWhitespace).reverse.dropWhile
      Char.isWhitespace).reverse⟩

/-- The cache key built by `getCoordinates`:
`'geocoding:' + city.toLowerCase().trim()`. -/
def geocodingKey (city : String) : String :=
  "geocoding:" ++ lowerTrim city

/-- The geocoding cache read as `getCoordinates` observes it. The cache is
instantiated at `T = GeolocationResult | null`, so the JS value returned by
`get` is `null` both on a miss and when the stored data is itself the
cached-negative `null`; the hit/miss counter inside the tracking `get`
tests that same JS value (`result !== null`). -/
def geoCacheGet (k : String) (now : Int) (st : CacheState (Option GeolocationResult)) :
    Option GeolocationResult × CacheState (Option GeolocationResult) :=
  let r := baseGet k now st.storage
  let jsVal := r.1.join
  let s := bumpStats jsVal.isSome st.hits st.misses
  (jsVal, ⟨r.2, s.1, s.2⟩)

/-- Result of one `getCoordinates` call, with the upstream interaction made
observable: `result` is the returned value (or the thrown rate-limit
error), `cache` the geocoding cache state afterwards, and `fetched` whether
an upstream HTTP request was issued. -/
structure GeoCallResult where
  result : Except String (Option GeolocationResult)
  cache : CacheState (Option GeolocationResult)
  fetched : Bool
deriving Repr

/-- `GeocodingService.getCoordinates`, with the two collaborators passed as
values: `rlAllowed` is the verdict of `rateLimiter.checkLimit` for the
geocoding API key, and `upstream` is the first element of the validated
response's `results` (or `none` when the result set is empty). The call
first consults the cache and returns without fetching when the cached JS
value is truthy; on a miss it throws if rate-limited, and otherwise
fetches: an empty result set stores the negative `null` with a 30-minute
ttl and returns `null`, a hit stores the coordinates with the default ttl. -/
def getCoordinates (city : String) (now : Int) (rlAllowed : Bool)
    (upstream : Option GeolocationResult)
    (st : CacheState (Option GeolocationResult)) : GeoCallResult :=
  let key := geocodingKey city
  let c := geoCacheGet key now st
  match c.1 with
  | some coords => ⟨.ok (some coords), c.2, false⟩
  | none =>
    if rlAllowed then
      match upstream with
      | none =>
          ⟨.ok none, cacheSet geocodingConfig key none (some (30 * 60 * 1000)) now c.2,
           true⟩
      | some coords =>
          ⟨.ok (some coords), cacheSet geocodingConfig key (some coords) none now c.2,
           true⟩
    else ⟨.error "Rate limit exceeded for geocoding API", c.2, false⟩

/-! ## Helper lemmas about the Map model -/

theorem mapGet_mapSet_self {α : Type} (l : List (String × α)) (k : String) (v : α) :
    mapGet (mapSet l k v) k = some v := by
  induction l with
  | nil => simp [mapSet, mapGet]
  | cons p rest ih =>
      by_cases h : p.1 = k
      · simp [mapSet, mapGet, h]
      · simp [mapSet, mapGet, h, ih]

theorem mapGet_eq_none_of_not_mem {α : Type} (l : List (String × α)) (k : String)
    (h : k ∉ l.map Prod.fst) : mapGet l k = none := by
  induction l with
  | nil => simp [mapGet]
  | cons p rest ih =>
      simp only [List.map_cons, List.mem_cons] at h
      push_neg at h
      have hpk : ¬p.1 = k := fun hpk => h.1 hpk.symm
      simp [mapGet, hpk, ih h.2]

theorem mapGet_mapDelete_self {α : Type} (l : List (String × α)) (k : String)
    (h : (l.map Prod.fst).Nodup) : mapGet (mapDelete l k) k = none := by
  induction l with
  | nil => simp [mapDelete, mapGet]
  | cons p rest ih =>
      simp only [List.map_cons, List.nodup_cons] at h
      by_cases hpk : p.1 = k
      · simpa [mapDelete, hpk] using mapGet_eq_none_of_not_mem rest k (hpk ▸ h.1)
      · simp [mapDelete, mapGet, hpk, ih h.2]

/-- Reading back a key that `baseGet` just answered positively: the entry is
present, unexpired, carries the returned data, and the storage was left
untouched. -/
theorem baseGet_some_inv {α : Type} (k : String) (now : Int)
    (l : List (String × CacheEntry α)) (v : α)
    (h : (baseGet k now l).1 = some v) :
    (baseGet k now l).2 = l ∧
      ∃ e, mapGet l k = some e ∧ e.data = v ∧ ¬e.ttl < now - e.timestamp := by
  unfold baseGet at h
  cases hm : mapGet l k with
  | none => rw [hm] at h; simp at h
  | some e =>
      rw [hm] at h
      by_cases hexp : e.ttl < now - e.timestamp
      · simp [hexp] at h
      · simp only [if_neg hexp] at h
        have hv : e.data = v := by simpa using h
        refine ⟨?_, e, rfl, hv, hexp⟩
        unfold baseGet
        rw [hm]
        change (if e.ttl < now - e.timestamp then (none, mapDelete l k)
          else (some e.data, l)).2 = l
        rw [if_neg hexp]

/-- A `set` followed by a read of the same key at a time at most `ttl`
later finds the freshly written value. -/
theorem cacheSet_baseGet {α : Type} (cfg : CacheConfig) (k : String) (v : α)
    (ttl : Option Int) (now t : Int) (st : CacheState α)
    (h : ¬effectiveTtl ttl cfg.defaultTtl < t - now) :
    baseGet k t (cacheSet cfg k v ttl now st).storage =
      (some v, (cacheSet cfg k v ttl now st).storage) := by
  unfold cacheSet baseGet
  simp only [mapGet_mapSet_self]
  simp [h]

/-! ## Helper lemmas about the rate limiter -/

/-- What the code computes with `Math.ceil(x / 1000)` is the mathematical
ceiling of the exact rational quotient. -/
theorem jsCeilDiv_thousand (x : ℤ) : jsCeilDiv x 1000 = ⌈(x : ℚ) / 1000⌉ := by
  unfold jsCeilDiv
  rw [Int.fdiv_eq_ediv _ (by norm_num)]
  have h := Rat.floor_intCast_div_natCast (-x) 1000
  have hc : ((1000 : ℕ) : ℚ) = (1000 : ℚ) := by norm_num
  have hz : ((1000 : ℕ) : ℤ) = (1000 : ℤ) := by norm_num
  rw [hc, hz] at h
  rw [← h, Int.cast_neg, neg_div, Int.floor_neg, neg_neg]

/-- One `checkLimit` call preserves the per-key invariant: the stored list
stays sorted, never grows beyond `maxRequests`, is bounded by the current
time, and afterwards every stored timestamp lies inside the window. -/
theorem checkLimit_state_inv (cfg : RateLimitConfig) (now : Int) (st : List Int)
    (hw : 0 < cfg.windowMs)
    (hs : List.Sorted (· ≤ ·) st) (hlen : st.length ≤ cfg.maxRequests)
    (hub : ∀ x ∈ st, x ≤ now) :
    List.Sorted (· ≤ ·) (checkLimit cfg now st).2 ∧
      (checkLimit cfg now st).2.length ≤ cfg.maxRequests ∧
      (∀ x ∈ (checkLimit cfg now st).2, x ≤ now) ∧
      (∀ x ∈ (checkLimit cfg now st).2, now - cfg.windowMs < x) := by
  simp only [checkLimit]
  by_cases hc :
      cfg.maxRequests ≤ (st.filter (fun t => decide (now - cfg.windowMs < t))).length
  · rw [if_pos hc]
    have h1 : (st.filter (fun t => decide (now - cfg.windowMs < t))).length = st.length :=
      le_antisymm (List.length_filter_le _ _) (le_trans hlen hc)
    have hall := List.filter_length_eq_length.mp h1
    exact ⟨hs, hlen, hub, fun x hx => by simpa using hall x hx⟩
  · rw [if_neg hc]
    push_neg at hc
    refine ⟨?_, ?_, ?_, ?_⟩
    · refine List.pairwise_append.mpr ⟨hs.filter _, List.pairwise_singleton _ _, ?_⟩
      intro a ha b hb
      rw [List.mem_singleton] at hb
      exact hb ▸ hub a (List.mem_filter.mp ha).1
    · rw [List.length_append, List.length_singleton]
      omega
    · intro x hx
      rcases List.mem_append.mp hx with hx | hx
      · exact hub x (List.mem_filter.mp hx).1
      · rw [List.mem_singleton] at hx
        exact hx.le
    · intro x hx
      rcases List.mem_append.mp hx with hx | hx
      · simpa using (List.mem_filter.mp hx).2
      · rw [List.mem_singleton] at hx
        omega

/-- Folding `checkLimit` over a sorted sequence of call times keeps the
invariant, and after the last call every stored timestamp lies strictly
inside that call's window. -/
theorem runLimiter_fold_inv (cfg : RateLimitConfig) (hw : 0 < cfg.windowMs) :
    ∀ (calls st : List Int) (b : Int),
      List.Sorted (· ≤ ·) calls → (∀ c ∈ calls, b ≤ c) →
      List.Sorted (· ≤ ·) st → st.length ≤ cfg.maxRequests → (∀ x ∈ st, x ≤ b) →
      List.Sorted (· ≤ ·) (calls.foldl (fun s t => (checkLimit cfg t s).2) st) ∧
        (calls.foldl (fun s t => (checkLimit cfg t s).2) st).length ≤ cfg.maxRequests ∧
        (∀ x ∈ calls.foldl (fun s t => (checkLimit cfg t s).2) st, x ≤ calls.getLastD b) ∧
        (calls ≠ [] →
          ∀ x ∈ calls.foldl (fun s t => (checkLimit cfg t s).2) st,
            calls.getLastD b - cfg.windowMs < x) := by
  intro calls
  induction calls with
  | nil =>
      intro st b _ _ hs hlen hub
      exact ⟨hs, hlen, by simpa using hub, fun h => absurd rfl h⟩
  | cons t rest ih =>
      intro st b hsc hb hs hlen hub
      rw [List.sorted_cons] at hsc
      have hbt : b ≤ t := hb t (List.mem_cons_self t rest)
      have hstep := checkLimit_state_inv cfg t st hw hs hlen
        (fun x hx => le_trans (hub x hx) hbt)
      rw [List.foldl_cons, List.getLastD_cons]
      have hrest := ih (checkLimit cfg t st).2 t hsc.2 hsc.1
        hstep.1 hstep.2.1 hstep.2.2.1
      refine ⟨hrest.1, hrest.2.1, hrest.2.2.1, fun _ => ?_⟩
      cases hr : rest with
      | nil =>
          subst hr
          simpa using hstep.2.2.2
      | cons r rs =>
          subst hr
          exact hrest.2.2.2 (by simp)

/-- Head of a sorted list bounds every element from below. -/
theorem sorted_headI_le {l : List Int} (h : List.Sorted (· ≤ ·) l) :
    ∀ x ∈ l, l.headI ≤ x := by
  cases l with
  | nil => simp
  | cons a t =>
      intro x hx
      rcases List.mem_cons.mp hx with rfl | hx
      · exact le_refl x
      · exact (List.sorted_cons.mp h).1 x hx

/-- C4: after any `checkLimit` call (allowed or denied) at time `now`, every
timestamp stored for the key is strictly greater than `now - windowMs`, and
the stored sequence is in ascending order. Earlier calls happen at earlier
(or equal) times, i.e. the whole call-time sequence is sorted. -/
theorem rateLimiter_window_invariant (cfg : RateLimitConfig) (prev : List Int)
    (now : Int) (hw : 0 < cfg.windowMs)
    (hs : List.Sorted (· ≤ ·) (prev ++ [now])) :
    List.Sorted (· ≤ ·) (runLimiter cfg (prev ++ [now])) ∧
      ∀ x ∈ runLimiter cfg (prev ++ [now]), now - cfg.windowMs < x ∧ x ≤ now := by
  simp only [runLimiter]
  have h := runLimiter_fold_inv cfg hw (prev ++ [now]) [] ((prev ++ [now]).headI)
    hs (sorted_headI_le hs) (by simp) (by simp) (by simp)
  rw [List.getLastD_concat] at h
  exact ⟨h.1, fun x hx => ⟨h.2.2.2 (by simp) x hx, h.2.2.1 x hx⟩⟩

/-- Witness for C4 at the concrete scenario of the spec: calls at t = 0,
100, 200 with `maxRequests = 2`, `windowMs = 1000`. -/
theorem rateLimiter_window_invariant_witness :
    List.Sorted (· ≤ ·) (runLimiter ⟨2, 1000⟩ ([0, 100] ++ [200])) ∧
      ∀ x ∈ runLimiter ⟨2, 1000⟩ ([0, 100] ++ [200]),
        (200 : ℤ) - 1000 < x ∧ x ≤ 200 :=
  rateLimiter_window_invariant ⟨2, 1000⟩ [0, 100] 200 (by decide) (by decide)

/-- C3: `checkLimit` prunes timestamps at or before `now - windowMs`; a
pruned count at or above `maxRequests` denies with
`retryAfterSeconds = ceil((oldest + windowMs - now) / 1000)` (exact
rational ceiling); otherwise it admits, records `now`, and reports
`remaining = maxRequests - count_after_append`. Concretely, with
`maxRequests = 2`, `windowMs = 1000`: calls at t = 0 and t = 100 are
allowed, t = 200 is denied with `retryAfter = 1`, and t = 1100 is allowed. -/
theorem rateLimiter_checkLimit_correct :
    (∀ (cfg : RateLimitConfig) (now : Int) (times : List Int),
      (cfg.maxRequests ≤ (times.filter (fun t => now - cfg.windowMs < t)).length →
        (checkLimit cfg now times).1.allowed = false ∧
        (checkLimit cfg now times).1.retryAfter =
          some ⌈((listMin (times.filter (fun t => now - cfg.windowMs < t)) +
              cfg.windowMs - now : ℤ) : ℚ) / 1000⌉) ∧
      ((times.filter (fun t => now - cfg.windowMs < t)).length < cfg.maxRequests →
        (checkLimit cfg now times).1.allowed = true ∧
        (checkLimit cfg now times).2 =
          times.filter (fun t => now - cfg.windowMs < t) ++ [now] ∧
        (checkLimit cfg now times).1.remaining =
          (cfg.maxRequests : ℤ) -
            ((times.filter (fun t => now - cfg.windowMs < t)).length + 1))) ∧
    ((checkLimit ⟨2, 1000⟩ 0 (runLimiter ⟨2, 1000⟩ [])).1.allowed = true ∧
      (checkLimit ⟨2, 1000⟩ 100 (runLimiter ⟨2, 1000⟩ [0])).1.allowed = true ∧
      (checkLimit ⟨2, 1000⟩ 200 (runLimiter ⟨2, 1000⟩ [0, 100])).1.allowed = false ∧
      (checkLimit ⟨2, 1000⟩ 200 (runLimiter ⟨2, 1000⟩ [0, 100])).1.retryAfter = some 1 ∧
      (checkLimit ⟨2, 1000⟩ 1100 (runLimiter ⟨2, 1000⟩ [0, 100, 200])).1.allowed = true) := by
  refine ⟨fun cfg now times => ⟨fun hc => ?_, fun hc => ?_⟩, by decide⟩
  · simp only [checkLimit]
    rw [if_pos hc]
    exact ⟨rfl, by simp [jsCeilDiv_thousand]⟩
  · simp only [checkLimit]
    rw [if_neg (not_le.mpr hc)]
    refine ⟨rfl, rfl, ?_⟩
    push_cast [List.length_append, List.length_singleton]
    ring

/-- Witness for C3: the denial formula evaluated at the spec's concrete
scenario (t = 200 after requests at t = 0 and t = 100). -/
theorem rateLimiter_checkLimit_correct_witness :
    (checkLimit ⟨2, 1000⟩ 200 [0, 100]).1.allowed = false ∧
    (checkLimit ⟨2, 1000⟩ 200 [0, 100]).1.retryAfter =
      some ⌈((listMin ([0, 100].filter (fun t => (200 : ℤ) - 1000 < t)) +
          1000 - 200 : ℤ) : ℚ) / 1000⌉ :=
  (rateLimiter_checkLimit_correct.1 ⟨2, 1000⟩ 200 [0, 100]).1 (by decide)

/-- C9: a denied `checkLimit` call leaves the stored state for the key
exactly as it was: nothing is recorded and the pruning computed during the
check is not written back. -/
theorem checkLimit_denied_preserves_state (cfg : RateLimitConfig) (now : Int)
    (times : List Int) (h : (checkLimit cfg now times).1.allowed = false) :
    (checkLimit cfg now times).2 = times := by
  simp only [checkLimit] at h ⊢
  by_cases hc :
      cfg.maxRequests ≤ (times.filter (fun t => decide (now - cfg.windowMs < t))).length
  · rw [if_pos hc]
  · rw [if_neg hc] at h
    simp at h

/-- Witness for C9: a denied call at t = 5 with one stored timestamp. -/
theorem checkLimit_denied_preserves_state_witness :
    (checkLimit ⟨1, 1000⟩ 5 [0]).2 = [0] :=
  checkLimit_denied_preserves_state ⟨1, 1000⟩ 5 [0] (by decide)

/-- C5: the overall health status is `unhealthy` when at least one of the
five checks fails (regardless of warnings), `degraded` when none fails and
two or more warn, and `healthy` when none fails and at most one warns. -/
theorem health_overall_reduction (l : List CheckStatus) (_h5 : l.length = 5) :
    ((∃ c ∈ l, c = CheckStatus.fail) → overallStatus l = OverallStatus.unhealthy) ∧
    ((∀ c ∈ l, c ≠ CheckStatus.fail) → 2 ≤ l.count CheckStatus.warn →
      overallStatus l = OverallStatus.degraded) ∧
    ((∀ c ∈ l, c ≠ CheckStatus.fail) → l.count CheckStatus.warn ≤ 1 →
      overallStatus l = OverallStatus.healthy) := by
  have hcount : l.count CheckStatus.warn =
      (l.filter (fun c => decide (c = CheckStatus.warn))).length := by
    rw [List.count_eq_countP, List.countP_eq_length_filter]
    congr 1
  refine ⟨?_, ?_, ?_⟩
  · rintro ⟨c, hc, rfl⟩
    have hpos : 0 < (l.filter (fun c => decide (c = CheckStatus.fail))).length :=
      List.length_pos_of_mem (List.mem_filter.mpr ⟨hc, by simp⟩)
    simp only [overallStatus]
    rw [if_pos hpos]
  · intro hnf hw
    have hzero : (l.filter (fun c => decide (c = CheckStatus.fail))).length = 0 := by
      rw [List.length_eq_zero]
      exact List.filter_eq_nil_iff.mpr (fun a ha => by simpa using hnf a ha)
    simp only [overallStatus]
    rw [if_neg (by omega), if_pos (by omega)]
  · intro hnf hw
    have hzero : (l.filter (fun c => decide (c = CheckStatus.fail))).length = 0 := by
      rw [List.length_eq_zero]
      exact List.filter_eq_nil_iff.mpr (fun a ha => by simpa using hnf a ha)
    simp only [overallStatus]
    rw [if_neg (by omega), if_neg (by omega)]

/-- Witness for C5: one list of five checks for each of the three verdicts. -/
theorem health_overall_reduction_witness :
    overallStatus [CheckStatus.pass, .warn, .warn, .pass, .pass] = .degraded ∧
    overallStatus [CheckStatus.pass, .warn, .pass, .pass, .pass] = .healthy ∧
    overallStatus [CheckStatus.fail, .warn, .warn, .pass, .pass] = .unhealthy :=
  ⟨(health_overall_reduction _ (by decide)).2.1 (by decide) (by decide),
   (health_overall_reduction _ (by decide)).2.2 (by decide) (by decide),
   (health_overall_reduction _ (by decide)).1 (by decide)⟩

/-- C8: passing an explicit ttl of `0` to `set` stores the entry with the
configured `defaultTtl` — the `ttl || defaultTtl` coalescing makes a zero
ttl indistinguishable from omitting the argument, so a zero ttl cannot be
requested through the public `set`. -/
theorem cacheSet_zero_ttl_uses_default {α : Type} (cfg : CacheConfig) (k : String)
    (v : α) (now : Int) (st : CacheState α) :
    cacheSet cfg k v (some 0) now st = cacheSet cfg k v none now st ∧
    mapGet (cacheSet cfg k v (some 0) now st).storage k =
      some ⟨v, now, cfg.defaultTtl⟩ := by
  constructor
  · simp [cacheSet, effectiveTtl]
  · simp [cacheSet, effectiveTtl, mapGet_mapSet_self]

/-- C6: `set(k, v, ttl)` followed immediately by `get(k)` returns `v`
(whenever the stored ttl is not negative), and once `now - storedAt > ttl`
a `get(k)` returns absent and physically removes the entry (expire on
read). -/
theorem cache_roundtrip_and_expire_on_read (α : Type) :
    (∀ (cfg : CacheConfig) (k : String) (v : α) (ttl : Option Int) (now : Int)
        (st : CacheState α), 0 ≤ effectiveTtl ttl cfg.defaultTtl →
        (cacheGet k now (cacheSet cfg k v ttl now st)).1 = some v) ∧
    (∀ (k : String) (now : Int) (st : CacheState α) (e : CacheEntry α),
        (st.storage.map Prod.fst).Nodup →
        mapGet st.storage k = some e → e.ttl < now - e.timestamp →
        (cacheGet k now st).1 = none ∧
        mapGet (cacheGet k now st).2.storage k = none) := by
  constructor
  · intro cfg k v ttl now st h
    have hb := cacheSet_baseGet cfg k v ttl now now st (by omega)
    simp [cacheGet, hb]
  · intro k now st e hnd hm hexp
    have hbg : baseGet k now st.storage = (none, mapDelete st.storage k) := by
      unfold baseGet
      rw [hm]
      change (if e.ttl < now - e.timestamp then (none, mapDelete st.storage k)
        else (some e.data, st.storage)) = _
      rw [if_pos hexp]
    constructor
    · simp [cacheGet, hbg]
    · simp [cacheGet, hbg, mapGet_mapDelete_self st.storage k hnd]

/-- Witness for C6: a round trip at t = 0 with ttl defaulted to 1000, and an
expired read at t = 200 of an entry written at t = 0 with ttl 100. -/
theorem cache_roundtrip_and_expire_on_read_witness :
    (cacheGet "k" 0 (cacheSet ⟨1000, 10, 50⟩ "k" (7 : ℕ) none 0 CacheState.empty)).1 =
      some 7 ∧
    ((cacheGet "k" 200 (⟨[("k", ⟨7, 0, 100⟩)], 0, 0⟩ : CacheState ℕ)).1 = none ∧
      mapGet (cacheGet "k" 200
        (⟨[("k", ⟨7, 0, 100⟩)], 0, 0⟩ : CacheState ℕ)).2.storage "k" = none) :=
  ⟨(cache_roundtrip_and_expire_on_read ℕ).1 ⟨1000, 10, 50⟩ "k" 7 none 0
      CacheState.empty (by decide),
   (cache_roundtrip_and_expire_on_read ℕ).2 "k" 200 _ ⟨7, 0, 100⟩
      (by decide) (by decide) (by decide)⟩

/-- C7: every tracking `get` bumps exactly one counter — `hits` when a
non-expired value comes back, `misses` otherwise — halving both (integer
floor) whenever their sum exceeds 100 after the bump; `has` delegates to
`get` wholesale (same verdict, same state change, same counting); the
reported hit rate is `hits / (hits + misses)`, `0` when both counters are
zero. -/
theorem cache_stats_tracking (α : Type) :
    (∀ (k : String) (now : Int) (st : CacheState α),
      (cacheGet k now st).1.isSome = true →
        ((cacheGet k now st).2.hits, (cacheGet k now st).2.misses) =
          if 100 < (st.hits + 1) + st.misses then ((st.hits + 1) / 2, st.misses / 2)
          else (st.hits + 1, st.misses)) ∧
    (∀ (k : String) (now : Int) (st : CacheState α),
      (cacheGet k now st).1 = none →
        ((cacheGet k now st).2.hits, (cacheGet k now st).2.misses) =
          if 100 < st.hits + (st.misses + 1) then (st.hits / 2, (st.misses + 1) / 2)
          else (st.hits, st.misses + 1)) ∧
    (∀ (k : String) (now : Int) (st : CacheState α),
      cacheHas k now st = ((cacheGet k now st).1.isSome, (cacheGet k now st).2)) ∧
    (∀ st : CacheState α,
      calculateHitRate st =
        if st.hits = 0 ∧ st.misses = 0 then 0
        else (st.hits : ℚ) / ((st.hits : ℚ) + st.misses)) := by
  refine ⟨?_, ?_, fun k now st => rfl, ?_⟩
  · intro k now st h
    simp only [cacheGet] at h ⊢
    simp [bumpStats, h]
  · intro k now st h
    simp only [cacheGet] at h ⊢
    simp [bumpStats, h]
  · intro st
    unfold calculateHitRate
    by_cases h : st.hits = 0 ∧ st.misses = 0
    · rw [if_neg (by omega), if_pos h]
    · rw [if_pos (by omega), if_neg h]

/-- Witness for C7: a hit at counters (50, 50) crosses the 100-event window
and halves to (25, 25); a miss on an empty cache counts (0, 1). -/
theorem cache_stats_tracking_witness :
    (((cacheGet "k" 0 (⟨[("k", ⟨3, 0, 100⟩)], 50, 50⟩ : CacheState ℕ)).2.hits,
      (cacheGet "k" 0 (⟨[("k", ⟨3, 0, 100⟩)], 50, 50⟩ : CacheState ℕ)).2.misses) =
        (25, 25)) ∧
    (((cacheGet "x" 0 (CacheState.empty : CacheState ℕ)).2.hits,
      (cacheGet "x" 0 (CacheState.empty : CacheState ℕ)).2.misses) = (0, 1)) :=
  ⟨(cache_stats_tracking ℕ).1 "k" 0 ⟨[("k", ⟨3, 0, 100⟩)], 50, 50⟩ (by decide),
   (cache_stats_tracking ℕ).2.1 "x" 0 CacheState.empty (by decide)⟩

/-- C1: the claim fails on the code. Two inserts of distinct new keys
within the same millisecond into a capacity-1 cache leave two stored
entries and evict nothing: `evictOldest` seeds its scan with the current
clock value and compares strictly, so no entry stored in the current
millisecond can ever be selected. The repo's own size-limit test expects
the oldest entry to be evicted here. -/
theorem cache_insert_same_ms_exceeds_capacity :
    (cacheSet ⟨1000, 1, 10000⟩ "b" (2 : ℕ) none 5
        (cacheSet ⟨1000, 1, 10000⟩ "a" 1 none 5 CacheState.empty)).storage.length = 2 ∧
    CacheConfig.maxSize ⟨1000, 1, 10000⟩ = 1 ∧
    mapGet (cacheSet ⟨1000, 1, 10000⟩ "b" (2 : ℕ) none 5
        (cacheSet ⟨1000, 1, 10000⟩ "a" 1 none 5 CacheState.empty)).storage "a" =
      some ⟨1, 5, 1000⟩ ∧
    mapGet (cacheSet ⟨1000, 1, 10000⟩ "b" (2 : ℕ) none 5
        (cacheSet ⟨1000, 1, 10000⟩ "a" 1 none 5 CacheState.empty)).storage "b" =
      some ⟨2, 5, 1000⟩ := by
  decide

/-- C2: the first lookup of an unknown city does store the negative result
with the 30-minute ttl, as the claim says; but a second lookup of the same
city well inside those 30 minutes still issues an upstream fetch — the
`if (cachedResult)` truthiness test treats the cached `null` exactly like
a cache miss, so the negative entry is never served. -/
theorem geocoding_negative_cache_not_reused :
    (getCoordinates "Atlantis" 0 true none CacheState.empty).fetched = true ∧
    mapGet (getCoordinates "Atlantis" 0 true none CacheState.empty).cache.storage
        "geocoding:atlantis" = some ⟨none, 0, 30 * 60 * 1000⟩ ∧
    (getCoordinates "Atlantis" 60000 true none
        (getCoordinates "Atlantis" 0 true none CacheState.empty).cache).fetched = true ∧
    (getCoordinates "Atlantis" 60000 true none
        (getCoordinates "Atlantis" 0 true none CacheState.empty).cache).result =
      Except.ok none := by
  refine ⟨by decide, by decide, by decide, ?_⟩
  rfl

/-- A cached truthy value is stable: reading it again right after a read
that returned it yields the same coordinates. -/
theorem geoCacheGet_some_stable (k : String) (now : Int)
    (st : CacheState (Option GeolocationResult)) (c : GeolocationResult)
    (h : (geoCacheGet k now st).1 = some c) :
    (geoCacheGet k now (geoCacheGet k now st).2).1 = some c := by
  have hj : ((baseGet k now st.storage).1).join = some c := by
    simpa [geoCacheGet] using h
  have hb : (baseGet k now st.storage).1 = some (some c) := by
    cases hbb : (baseGet k now st.storage).1 with
    | none => rw [hbb] at hj; simp at hj
    | some o => rw [hbb] at hj; simp at hj; rw [hj]
  have hinv := baseGet_some_inv k now st.storage (some c) hb
  simp only [geoCacheGet]
  rw [hinv.1, hb]
  rfl

/-- Freshly stored coordinates are immediately readable through the
geocoding cache view. -/
theorem geoCacheGet_after_set (k : String) (now : Int)
    (st : CacheState (Option GeolocationResult)) (c : GeolocationResult) :
    (geoCacheGet k now (cacheSet geocodingConfig k (some c) none now st)).1 =
      some c := by
  have hb := cacheSet_baseGet geocodingConfig k (some c) none now now st
    (by simp only [effectiveTtl, geocodingConfig]; omega)
  simp [geoCacheGet, hb]

/-- C10: two city strings equal after lowercasing and trimming share one
cache key, so after any `getCoordinates` call that returned coordinates
for one of them, an immediate lookup of the other answers those same
coordinates from the cache without an upstream call. -/
theorem geocoding_key_normalization (c₁ c₂ : String) (now : Int) (rl₁ : Bool)
    (up₁ : Option GeolocationResult) (st : CacheState (Option GeolocationResult))
    (coords : GeolocationResult)
    (hn : lowerTrim c₁ = lowerTrim c₂)
    (h₁ : (getCoordinates c₁ now rl₁ up₁ st).result = .ok (some coords))
    (rl₂ : Bool) (up₂ : Option GeolocationResult) :
    (getCoordinates c₂ now rl₂ up₂ (getCoordinates c₁ now rl₁ up₁ st).cache).result =
      .ok (some coords) ∧
    (getCoordinates c₂ now rl₂ up₂ (getCoordinates c₁ now rl₁ up₁ st).cache).fetched =
      false := by
  have hkey : geocodingKey c₂ = geocodingKey c₁ := by
    unfold geocodingKey
    rw [hn]
  have hread : (geoCacheGet (geocodingKey c₁) now
      (getCoordinates c₁ now rl₁ up₁ st).cache).1 = some coords := by
    cases hc : (geoCacheGet (geocodingKey c₁) now st).1 with
    | some c =>
        have hcc : c = coords := by
          simpa [getCoordinates, hc] using h₁
        have hcache : (getCoordinates c₁ now rl₁ up₁ st).cache =
            (geoCacheGet (geocodingKey c₁) now st).2 := by
          simp [getCoordinates, hc]
        rw [hcache]
        subst hcc
        exact geoCacheGet_some_stable _ _ _ _ hc
    | none =>
        cases hrl : rl₁ with
        | false => simp [getCoordinates, hc, hrl] at h₁
        | true =>
            cases hup : up₁ with
            | none => simp [getCoordinates, hc, hrl, hup] at h₁
            | some c =>
                have hcc : c = coords := by
                  simpa [getCoordinates, hc, hrl, hup] using h₁
                have hcache : (getCoordinates c₁ now true (some c) st).cache =
                    cacheSet geocodingConfig (geocodingKey c₁) (some c) none now
                      (geoCacheGet (geocodingKey c₁) now st).2 := by
                  simp [getCoordinates, hc]
                rw [hcache]
                subst hcc
                exact geoCacheGet_after_set _ _ _ _
  generalize hA : (getCoordinates c₁ now rl₁ up₁ st).cache = A at hread ⊢
  constructor <;> simp [getCoordinates, hkey, hread]

/-- Witness for C10: a fetch for "Madrid" followed by a lookup of
`' MADRID '` with the rate limiter closed and no upstream data: the second
call is answered from the cache without fetching. -/
theorem geocoding_key_normalization_witness :
    (getCoordinates " MADRID " 0 false none
        (getCoordinates "Madrid" 0 true (some ⟨40, -3, "Madrid", "Spain"⟩)
          CacheState.empty).cache).result = .ok (some ⟨40, -3, "Madrid", "Spain"⟩) ∧
    (getCoordinates " MADRID " 0 false none
        (getCoordinates "Madrid" 0 true (some ⟨40, -3, "Madrid", "Spain"⟩)
          CacheState.empty).cache).fetched = false :=
  geocoding_key_normalization "Madrid" " MADRID " 0 true
    (some ⟨40, -3, "Madrid", "Spain"⟩) CacheState.empty ⟨40, -3, "Madrid", "Spain"⟩
    (by decide) rfl false none

end McpTools
